import Mathlib

/-
  Verification of the go-python back-end core against its design
  specification.

  The development shallowly embeds the Go sources:
  - the SSA context (ssa_test.go's embedded ssa implementation: Write, Eval,
    LoadInt, Spill, Fill, generateSpill, generateFill, AllocateRegisters),
  - the bytecode encoder (bytecode.go: Name, BindLocal, WriteLoad, WriteBind),
  - the virtual machine dispatcher (machine.go: Dispatch),
  - the scanner's indent/dedent handling (scanner.go: Scan, whitespace case),
  - the boxed object model (StringObject arithmetic, ObjectData attributes).

  Go machine integers stay Nat (all values reaching them are non-negative
  array indices, register ids and slot numbers); the 32-bit instruction word
  is built with explicit mod 2^32.  Go's 'panic' is modelled by Option: a
  function that can panic returns none on the panicking path.  Go maps are
  modelled as association lists keyed by decidable equality; a *big.Int is
  modelled as a reference (allocation id) paired with its numeric value, so
  that map keys compare the way Go compares pointers.  Growable backing
  arrays are collapsed to the live prefix: the Elements slice is modelled by
  the list of elements written so far, and last_element_id is its length.
-/

/-! ### Association-list and vector helpers (Go map / container.vector) -/

/-- Go vector Push: append at the end. -/
def vpush (xs : List Nat) (x : Nat) : List Nat := xs ++ [x]

/-- Go vector Pop: remove and return the last element (callers guard emptiness). -/
def vpop (xs : List Nat) : Nat × List Nat := (xs.getLastD 0, xs.dropLast)

/-- Lookup in a map modelled as an association list (Go map read, comma-ok form). -/
def mapLookup (m : List (Nat × Nat)) (k : Nat) : Option Nat :=
  (m.find? (fun p => p.1 == k)).map (fun p => p.2)

/-- Go map assignment: overwrite the existing binding or add a new one. -/
def mapInsert (m : List (Nat × Nat)) (k v : Nat) : List (Nat × Nat) :=
  if (m.find? (fun p => p.1 == k)).isSome then
    m.map (fun p => if p.1 == k then (k, v) else p)
  else m ++ [(k, v)]

/-- Go map deletion. -/
def mapErase (m : List (Nat × Nat)) (k : Nat) : List (Nat × Nat) :=
  m.filter (fun p => p.1 != k)

/-- Membership in a set-of-ids modelled as a list (Go map[int]bool with comma-ok reads). -/
def nsMem (s : List Nat) (k : Nat) : Bool := s.contains k

/-- Insertion into the id set. -/
def nsInsert (s : List Nat) (k : Nat) : List Nat := if s.contains k then s else s ++ [k]

/-- Deletion from the id set. -/
def nsErase (s : List Nat) (k : Nat) : List Nat := s.filter (fun x => x != k)

/-! ### SSA opcodes and operand kinds (ssa_test.go constant blocks) -/

def SSA_CALL : Nat := 0
def SSA_SPILL : Nat := 1
def SSA_FILL : Nat := 2
def SSA_LOAD : Nat := 3
def SSA_STORE : Nat := 4
def SSA_ALU_MARK : Nat := 5
def SSA_ADD : Nat := 6
def SSA_SUB : Nat := 7
def SSA_MUL : Nat := 8
def SSA_DIV : Nat := 9
def SSA_MOD : Nat := 10
def SSA_POW : Nat := 11
def SSA_AND : Nat := 12
def SSA_OR : Nat := 13
def SSA_XOR : Nat := 14
def SSA_NOT : Nat := 15
def SSA_GET : Nat := 16
def SSA_SET : Nat := 17
def SSA_IDX : Nat := 18

def SSA_TYPE_ELEMENT : Nat := 0
def SSA_TYPE_CLASS : Nat := 1
def SSA_TYPE_INTEGER : Nat := 2
def SSA_TYPE_STRING : Nat := 3
def SSA_TYPE_BUFFER : Nat := 4
def SSA_TYPE_FLOAT : Nat := 5
def SSA_TYPE_COMPLEX : Nat := 6
def SSA_TYPE_BOOL : Nat := 7
def SSA_TYPE_NONE : Nat := 8
def SSA_TYPE_UNKNOWN : Nat := 9

/-! ### SSA data model (ssa_test.go) -/

/-- A *big.Int is a heap reference: Go interning maps key on the pointer, so the
    model pairs an allocation id with the numeric value; key equality is
    equality of both, which coincides with pointer equality as long as distinct
    allocations receive distinct ids. -/
structure BigIntRef where
  ref : Nat
  val : Int
deriving DecidableEq

/-- One SSA assignment (struct SsaElement).  Go's zero value is the field
    defaults. -/
structure SsaElement where
  Op : Nat := 0
  Src1 : Nat := 0
  Src2 : Nat := 0
  Src1Type : Nat := 0
  Src2Type : Nat := 0
  WasRead : Bool := false
  IsConst : Bool := false
  Pinned : Bool := false
  LiveStart : Nat := 0
  LiveEnd : Nat := 0
  ActiveStart : Nat := 0
  ActiveEnd : Nat := 0
  DstRegister : Nat := 0
  Src1Register : Nat := 0
  Src2Register : Nat := 0
  Address : Nat := 0
deriving DecidableEq

instance : Inhabited SsaElement := ⟨{}⟩

/-- The append-only SSA log with its interning pools (struct SsaContext).
    Elements models the written prefix of the growable slice, so
    last_element_id is Elements.length. -/
structure SsaContext where
  Elements : List SsaElement := []
  Ints : List BigIntRef := []
  IntIdx : List (BigIntRef × Nat) := []
  SpillRoomNeeded : Nat := 0
  DisableLiveCheck : Bool := false
deriving DecidableEq

instance : Inhabited SsaContext := ⟨{}⟩

/-- SsaContext.Init: fresh context (the 128-slot preallocation is capacity only). -/
def SsaContext.init : SsaContext := {}

/-- Lookup in the big-integer interning pool (Go map[*big.Int]int read). -/
def intIdxLookup (m : List (BigIntRef × Nat)) (v : BigIntRef) : Option Nat :=
  (m.find? (fun p => decide (p.1 = v))).map (fun p => p.2)

/-- Insertion into the big-integer interning pool. -/
def intIdxInsert (m : List (BigIntRef × Nat)) (v : BigIntRef) (i : Nat) :
    List (BigIntRef × Nat) :=
  if ((m.find? (fun p => decide (p.1 = v))).isSome) then
    m.map (fun p => if p.1 = v then (v, i) else p)
  else m ++ [(v, i)]

/-- SsaContext.Write: appends el at index last_element_id and returns that
    index.  Unless disable_live_check, it first initialises el's live range
    and, for ops above alu_mark, marks element-reference operands read and
    extends their live_end to the write index.  (The Go growth loop only
    resizes the backing array and is absorbed by the list model.) -/
def SsaContext.Write (ctx : SsaContext) (el : SsaElement) : SsaContext × Nat :=
  let lid := ctx.Elements.length
  let p :=
    if ctx.DisableLiveCheck then (el, ctx.Elements)
    else
      let el := { el with LiveStart := lid, LiveEnd := lid }
      let elems := ctx.Elements
      let elems :=
        if SSA_ALU_MARK < el.Op then
          let elems :=
            if el.Src1Type = SSA_TYPE_ELEMENT then
              elems.set el.Src1
                { elems.getD el.Src1 default with WasRead := true, LiveEnd := lid }
            else elems
          let elems :=
            if el.Src2Type = SSA_TYPE_ELEMENT then
              elems.set el.Src2
                { elems.getD el.Src2 default with WasRead := true, LiveEnd := lid }
            else elems
          elems
        else elems
      (el, elems)
  let el := { p.1 with Address := lid }
  ({ ctx with Elements := p.2 ++ [el] }, lid)

/-- SsaContext.Eval: write an ALU element whose operands are element references. -/
def SsaContext.Eval (ctx : SsaContext) (op src1 src2 : Nat) : SsaContext × Nat :=
  ctx.Write { Op := op, Src1 := src1, Src2 := src2,
              Src1Type := SSA_TYPE_ELEMENT, Src2Type := SSA_TYPE_ELEMENT }

/-- SsaContext.Spill: bookkeeping instruction saving from_register into to_slot. -/
def SsaContext.Spill (ctx : SsaContext) (to_slot from_register : Nat) : SsaContext × Nat :=
  ctx.Write { Op := SSA_SPILL, Src1 := to_slot, DstRegister := from_register }

/-- SsaContext.Fill: bookkeeping instruction restoring from_slot into to_register. -/
def SsaContext.Fill (ctx : SsaContext) (from_slot to_register : Nat) : SsaContext × Nat :=
  ctx.Write { Op := SSA_FILL, Src1 := from_slot, DstRegister := to_register }

/-- SsaContext.LoadInt: intern v in the big-int pool; on a miss, push the value,
    write a LOAD element whose src1 is the pool index, and record the element
    id in the pool map.  Returns the element id. -/
def SsaContext.LoadInt (ctx : SsaContext) (v : BigIntRef) : SsaContext × Nat :=
  match intIdxLookup ctx.IntIdx v with
  | some idx => (ctx, idx)
  | none =>
    let idx := ctx.IntIdx.length
    let ctx := { ctx with Ints := ctx.Ints ++ [v] }
    let p := ctx.Write { Op := SSA_LOAD, Src1 := idx, Src1Type := SSA_TYPE_INTEGER }
    ({ p.1 with IntIdx := intIdxInsert p.1.IntIdx v p.2 }, p.2)

/-! ### Linear-scan register allocator (ssa_test.go) -/

/-- Allocator working state (struct SsaMapContext). -/
structure SsaMapContext where
  FreeSpillSlots : List Nat := []
  NoSpillElements : List Nat := []
  SpillMap : List (Nat × Nat) := []
  RenameMap : List (Nat × Nat) := []
  FreeRegs : List Nat := []
  ActiveElements : List Nat := []
deriving DecidableEq

/-- The candidate-selection loop of generateSpill.  The active list stores the
    addresses of elements already written into the new context; the loop keeps
    the pair (position in the active list, element address) of the best
    candidate.  Note the Go code admits a candidate only when its address IS
    present in the no-spill map. -/
def findSpillCandidate (nc : SsaContext) (mc : SsaMapContext) : Option (Nat × Nat) :=
  (mc.ActiveElements.foldl
    (fun (acc : Option (Nat × Nat) × Nat) addr =>
      let candidate := nc.Elements.getD addr default
      let best :=
        if nsMem mc.NoSpillElements candidate.Address then
          match acc.1 with
          | none => some (acc.2, addr)
          | some b =>
            if (nc.Elements.getD b.2 default).LiveEnd < candidate.LiveEnd then
              some (acc.2, addr)
            else acc.1
        else acc.1
      (best, acc.2 + 1))
    (none, 0)).1

/-- SsaContext.generateSpill: choose a victim among the active elements, emit a
    SPILL into the new context, record the slot mapping, delete the victim from
    the active list and return its register.  The panic when no candidate is
    found is the none result. -/
def generateSpill (nc : SsaContext) (mc : SsaMapContext) :
    Option (SsaContext × SsaMapContext × Nat) :=
  match findSpillCandidate nc mc with
  | none => none
  | some ia =>
    let spillEl := nc.Elements.getD ia.2 default
    let slotp :=
      if mc.FreeSpillSlots.length = 0 then (mc.SpillMap.length, mc.FreeSpillSlots)
      else vpop mc.FreeSpillSlots
    let spillMap := mapInsert mc.SpillMap spillEl.Address slotp.1
    let nc := (nc.Spill slotp.1 spillEl.DstRegister).1
    let nc :=
      if nc.SpillRoomNeeded < spillMap.length then
        { nc with SpillRoomNeeded := spillMap.length }
      else nc
    some (nc,
      { mc with FreeSpillSlots := slotp.2, SpillMap := spillMap,
                ActiveElements := mc.ActiveElements.eraseIdx ia.1 },
      spillEl.DstRegister)

/-- SsaContext.generateFill: return a spilled element's slot to the free pool,
    find a target register (spilling if none is free), remove the spill-map
    entry, re-activate the element and emit a FILL; returns the FILL's id. -/
def generateFill (nc : SsaContext) (elAddr : Nat) (mc : SsaMapContext) :
    Option (SsaContext × SsaMapContext × Nat) :=
  let el := nc.Elements.getD elAddr default
  let free_slot := (mapLookup mc.SpillMap el.Address).getD 0
  let mc := { mc with FreeSpillSlots := vpush mc.FreeSpillSlots free_slot }
  let step :=
    if mc.FreeRegs.length = 0 then generateSpill nc mc
    else
      let p := vpop mc.FreeRegs
      some (nc, { mc with FreeRegs := p.2 }, p.1)
  match step with
  | none => none
  | some s =>
    let nc := s.1
    let mc := s.2.1
    let target_reg := s.2.2
    let mc := { mc with SpillMap := mapErase mc.SpillMap el.Address }
    let mc := { mc with ActiveElements := vpush mc.ActiveElements el.Address }
    let p := nc.Fill free_slot target_reg
    some (p.1, mc, p.2)

/-- Substitution through the rename map: the comma-ok Go read replaces the id
    only when the map holds a binding for it. -/
def renameVia (m : List (Nat × Nat)) (k : Nat) : Nat :=
  match mapLookup m k with
  | some n => n
  | none => k

/-- The "process any renames and fills" block of AllocateRegisters: for an op
    above alu_mark, substitute both operands through the rename map, protect
    them in the no-spill set, and fill each operand found in the spill map,
    pointing the operand at the emitted FILL element.  Ops at or below the
    mark pass through untouched. -/
def processFills (el : SsaElement) (nc : SsaContext) (mc : SsaMapContext) :
    Option (SsaElement × SsaContext × SsaMapContext) :=
  if SSA_ALU_MARK < el.Op then
    let el := { el with Src1 := renameVia mc.RenameMap el.Src1 }
    let el := { el with Src2 := renameVia mc.RenameMap el.Src2 }
    let mc := { mc with
      NoSpillElements := nsInsert (nsInsert mc.NoSpillElements el.Src1) el.Src2 }
    let f1 :=
      if (mapLookup mc.SpillMap el.Src1).isSome then
        match generateFill nc el.Src1 mc with
        | none => none
        | some s => some ({ el with Src1 := s.2.2 }, s.1, s.2.1)
      else some (el, nc, mc)
    match f1 with
    | none => none
    | some q =>
      let el := q.1
      let nc := q.2.1
      let mc := q.2.2
      if (mapLookup mc.SpillMap el.Src2).isSome then
        match generateFill nc el.Src2 mc with
        | none => none
        | some s => some ({ el with Src2 := s.2.2 }, s.1, s.2.1)
      else some (el, nc, mc)
  else some (el, nc, mc)

/-- The "figure out what register this instruction should go into" block: pop
    a free register, or spill to vacate one. -/
def selectDstReg (nc : SsaContext) (mc : SsaMapContext) :
    Option (SsaContext × SsaMapContext × Nat) :=
  if mc.FreeRegs.length = 0 then generateSpill nc mc
  else
    let p := vpop mc.FreeRegs
    some (nc, { mc with FreeRegs := p.2 }, p.1)

/-- One iteration of the AllocateRegisters scan for the source element at index
    ssa_id: dead-code skip, expiry of dead actives, operand renaming, operand
    fills, destination-register selection (with spill), emission of the
    rewritten element, and no-spill cleanup.  Returns the (possibly
    register-stamped) source element together with the updated new context and
    working state; none propagates the allocator's panic. -/
def allocStep (ssa_id : Nat) (old_el : SsaElement) (nc : SsaContext) (mc : SsaMapContext) :
    Option (SsaElement × SsaContext × SsaMapContext) :=
  if !old_el.Pinned && !old_el.WasRead then some (old_el, nc, mc)
  else
    let el := old_el
    let ex := mc.ActiveElements.foldl
      (fun (acc : List Nat × List Nat × Bool) addr =>
        let candidate := nc.Elements.getD addr default
        if ssa_id ≤ candidate.LiveEnd then (acc.1 ++ [addr], acc.2.1, acc.2.2)
        else (acc.1, vpush acc.2.1 candidate.DstRegister, true))
      ([], mc.FreeRegs, false)
    let mc := { mc with ActiveElements := ex.1, FreeRegs := ex.2.1 }
    let el := if ex.2.2 then { el with ActiveEnd := ssa_id } else el
    let el := { el with ActiveStart := ssa_id }
    match processFills el nc mc with
    | none => none
    | some q =>
      let el := q.1
      let nc := q.2.1
      let mc := q.2.2
      match selectDstReg nc mc with
      | none => none
      | some d =>
        let nc := d.1
        let mc := d.2.1
        let el := { el with DstRegister := d.2.2 }
        let old_mut := { old_el with DstRegister := el.DstRegister }
        let w := nc.Write el
        let nc := w.1
        let mc := { mc with RenameMap := mapInsert mc.RenameMap ssa_id w.2,
                            ActiveElements := vpush mc.ActiveElements w.2 }
        let mc := { mc with
          NoSpillElements := nsErase (nsErase mc.NoSpillElements el.Src1) el.Src2 }
        some (old_mut, nc, mc)

/-- The scan over the source log in address order. -/
def allocLoop (pending : List SsaElement) (ssa_id : Nat) (nc : SsaContext)
    (mc : SsaMapContext) : Option (List SsaElement × SsaContext) :=
  match pending with
  | [] => some ([], nc)
  | old :: rest =>
    match allocStep ssa_id old nc mc with
    | none => none
    | some s =>
      match allocLoop rest (ssa_id + 1) s.2.1 s.2.2 with
      | none => none
      | some r => some (s.1 :: r.1, r.2)

/-- SsaContext.AllocateRegisters: one linear-scan pass producing a rewritten
    context with live checks disabled; registers 1..num_regs-1 seed the free
    stack (register 0 is reserved).  Returns the register-stamped source
    context and the new context, or none when the allocator panics. -/
def SsaContext.AllocateRegisters (ctx : SsaContext) (num_regs : Nat) :
    Option (SsaContext × SsaContext) :=
  let new_ctx : SsaContext := { SsaContext.init with DisableLiveCheck := true }
  let mc : SsaMapContext := { FreeRegs := (List.range num_regs).drop 1 }
  match allocLoop ctx.Elements 0 new_ctx mc with
  | none => none
  | some r => some ({ ctx with Elements := r.1 }, r.2)

/-! ### Bytecode opcodes, masks and shifts (bytecode.go, machine.go) -/

def NOP : Nat := 0
def NEW : Nat := 1
def LEN : Nat := 2

def LOAD : Nat := 16
def BIND : Nat := 17
def BOXI : Nat := 18
def BOXL : Nat := 19
def BOXF : Nat := 20
def BOXS : Nat := 21
def BOXB : Nat := 22
def UNBOXI : Nat := 23
def UNBOXL : Nat := 24
def UNBOXF : Nat := 25
def UNBOXS : Nat := 26
def UNBOXB : Nat := 27

def INDEX : Nat := 33
def SPILL : Nat := 34
def FILL : Nat := 35
def SET : Nat := 36
def GET : Nat := 37
def ADD : Nat := 38
def SUB : Nat := 39
def MUL : Nat := 40
def DIV : Nat := 41
def MOD : Nat := 42

def instruction_mask : Nat := 0x3F
def pred_execute_mask : Nat := 0x40
def pred_reg_mask : Nat := 0xF80

def pred_execute_shift : Nat := 6
def pred_reg_shift : Nat := 7

def source_reg1_mask : Nat := 0xF000
def source_reg2_mask : Nat := 0xF0000
def target_reg_mask : Nat := 0xF00000

def source_reg1_shift : Nat := 12
def source_reg2_shift : Nat := 16
def target_reg_shift : Nat := 20

def imm_target_reg_mask : Nat := 0xF000
def immediate_val_mask : Nat := 0xFFFF0000

def imm_target_reg_shift : Nat := 12
def immediate_val_shift : Nat := 16

/-! ### Boxed objects held by the VM registers and binding maps -/

/-- Boxed runtime values as far as the dispatcher claims need them: the Go
    register file holds pointers to boxed objects and the dispatcher moves
    them around without inspecting their payload. -/
inductive PyObj where
  | intObj (value : Int)
  | strObj (value : String)
  | noneObj
deriving DecidableEq

/-! ### Code stream and encoder (bytecode.go) -/

/-- Name-table lookup (Go map[string]uint16 read). -/
def strMapLookup (m : List (String × Nat)) (k : String) : Option Nat :=
  (m.find? (fun p => p.1 == k)).map (fun p => p.2)

/-- Locals/globals lookup: a Go map read of a missing key yields the zero
    value, a nil object. -/
def localsLookup (m : List (Nat × Option PyObj)) (k : Nat) : Option PyObj :=
  ((m.find? (fun p => p.1 == k)).map (fun p => p.2)).getD none

/-- Locals/globals assignment. -/
def localsInsert (m : List (Nat × Option PyObj)) (k : Nat) (v : Option PyObj) :
    List (Nat × Option PyObj) :=
  if (m.find? (fun p => p.1 == k)).isSome then
    m.map (fun p => if p.1 == k then (k, v) else p)
  else m ++ [(k, v)]

/-- A per-module code stream (struct CodeStream): byte buffer of encoded
    words, name table with its 16-bit counter, and the binding maps. -/
structure CodeStream where
  Buffer : List Nat := []
  Strings : List (String × Nat) := []
  StringCounter : Nat := 0
  Locals : List (Nat × Option PyObj) := []
  Globals : List (Nat × Option PyObj) := []
deriving DecidableEq

/-- CodeStream.Init: fresh stream. -/
def CodeStream.fresh : CodeStream := {}

/-- CodeStream.Name: intern a name, assigning the next 16-bit counter value on
    first sight. -/
def CodeStream.Name (s : CodeStream) (name : String) : CodeStream × Nat :=
  match strMapLookup s.Strings name with
  | some value => (s, value)
  | none =>
    let value := s.StringCounter
    ({ s with Strings := s.Strings ++ [(name, value)],
              StringCounter := (s.StringCounter + 1) % 65536 }, value)

/-- CodeStream.BindLocal: bind a name's id to an object in the locals map. -/
def CodeStream.BindLocal (s : CodeStream) (n : String) (o : PyObj) : CodeStream :=
  let p := s.Name n
  { p.1 with Locals := localsInsert p.1.Locals p.2 (some o) }

/-- binary.Write of a uint32 in little-endian byte order. -/
def writeWordLE (buf : List Nat) (w : Nat) : List Nat :=
  buf ++ [w % 256, w / 256 % 256, w / 65536 % 256, w / 16777216 % 256]

/-- CodeStream.WriteLoad: pack LOAD with the interned name id as the 16-bit
    immediate and the target register, plus the predicate fields, and append
    the word little-endian. -/
def CodeStream.WriteLoad (s : CodeStream) (name : String) (register : Nat)
    (pred_bit : Bool) (pred_reg : Nat) : CodeStream :=
  let p := s.Name name
  let instruction :=
    (LOAD ||| (pred_reg <<< pred_reg_shift) ||| (p.2 <<< immediate_val_shift) |||
      (register <<< imm_target_reg_shift)) % 4294967296
  let instruction :=
    if pred_bit then instruction ||| (1 <<< pred_execute_shift) else instruction
  { p.1 with Buffer := writeWordLE p.1.Buffer instruction }

/-- CodeStream.WriteBind: same packing with the BIND opcode. -/
def CodeStream.WriteBind (s : CodeStream) (name : String) (register : Nat)
    (pred_bit : Bool) (pred_reg : Nat) : CodeStream :=
  let p := s.Name name
  let instruction :=
    (BIND ||| (pred_reg <<< pred_reg_shift) ||| (p.2 <<< immediate_val_shift) |||
      (register <<< imm_target_reg_shift)) % 4294967296
  let instruction :=
    if pred_bit then instruction ||| (1 <<< pred_execute_shift) else instruction
  { p.1 with Buffer := writeWordLE p.1.Buffer instruction }

/-! ### Virtual machine (machine.go) -/

/-- Machine state: 16 boxed-object register slots (nil pointers at reset) and
    32 predicate bits. -/
structure Machine where
  Register : List (Option PyObj) := List.replicate 16 none
  Pred : List Bool := List.replicate 32 false
  NextInstruction : Nat := 0
deriving DecidableEq

/-- Machine reset state (Go zero value). -/
def Machine.fresh : Machine := {}

/-- binary.Read of a uint32 in little-endian byte order from the front of the
    stream buffer. -/
def readWordLE (buf : List Nat) : Nat :=
  buf.getD 0 0 + buf.getD 1 0 * 256 + buf.getD 2 0 * 65536 + buf.getD 3 0 * 16777216

/-- Machine.Dispatch: read one 32-bit instruction, decode the opcode and the
    format-appropriate fields, and execute.  The decoder extracts the target
    register and immediate; the execution switch handles NOP, LOAD and BIND,
    and every other opcode falls through with no effect. -/
def Machine.Dispatch (m : Machine) (c : CodeStream) : Machine × CodeStream :=
  let instruction := readWordLE c.Buffer
  let c := { c with Buffer := c.Buffer.drop 4 }
  let op := instruction &&& instruction_mask
  let dec :=
    if op ≤ 15 then ((0 : Nat), (0 : Nat))
    else if op ≤ 31 then
      ((instruction &&& imm_target_reg_mask) >>> imm_target_reg_shift,
       (instruction &&& immediate_val_mask) >>> immediate_val_shift)
    else ((instruction &&& target_reg_mask) >>> target_reg_shift, 0)
  let reg3 := dec.1
  let imm := dec.2
  if op = NOP then (m, c)
  else if op = LOAD then
    ({ m with Register := m.Register.set reg3 (localsLookup c.Locals imm) }, c)
  else if op = BIND then
    (m, { c with Locals := localsInsert c.Locals imm (m.Register.getD reg3 none) })
  else (m, c)

/-! ### Scanner indent handling (scanner.go, the whitespace case of Scan) -/

/-- The two tokens the indent handler can emit. -/
inductive ScanTok where
  | indent
  | dedent
deriving DecidableEq

/-- The whitespace-measuring loop: a space adds one, a tab pads the width to
    the next multiple of 8. -/
def indentWidth : List Char → Nat → Nat
  | [], n => n
  | c :: rest, n =>
    if c = ' ' then indentWidth rest (n + 1)
    else if c = '\t' then indentWidth rest ((n / 8 + 1) * 8)
    else n

/-- The indent/dedent decision switch.  The live indentStack slice is
    modelled with its top at the head (indentPos increments are pushes).  A
    width above the top emits INDENT and pushes; a width below the top emits
    DEDENT and also pushes (the Go branch increments indentPos exactly like
    the indent branch); an equal width emits nothing. -/
def indentDecision (stack : List Nat) (width : Nat) : Option ScanTok × List Nat :=
  let top := stack.headD 0
  if top < width then (some ScanTok.indent, width :: stack)
  else if width < top then (some ScanTok.dedent, width :: stack)
  else (none, stack)

/-- One Scan call at the start of a logical line, given the line's leading
    characters.  The whitespace case of Scan is guarded by
    ch equal to space or tab, so a line that does not begin with whitespace
    (measured width 0) never reaches the indent/dedent switch and leaves the
    stack untouched; otherwise the leading run is measured and the switch
    decides. -/
def scanLineIndent (stack : List Nat) (leading : List Char) :
    Option ScanTok × List Nat :=
  match leading with
  | [] => (none, stack)
  | c :: _ =>
    if c = ' ' ∨ c = '\t' then indentDecision stack (indentWidth leading 0)
    else (none, stack)

/-- Process the indent handling of successive logical lines given their
    leading characters. -/
def runIndentLines (stack : List Nat) (lines : List (List Char)) :
    List (Option ScanTok) × List Nat :=
  match lines with
  | [] => ([], stack)
  | l :: rest =>
    let p := scanLineIndent stack l
    let r := runIndentLines p.2 rest
    (p.1 :: r.1, r.2)

/-! ### String objects (part_015: StringObject) and attribute maps -/

/-- The string built-in object: the embedded ObjectData contributes the name
    and attribute map, which the arithmetic methods never touch. -/
structure StringObject where
  Name : String := ""
  Value : String
deriving DecidableEq

/-- NewString: fresh string object with initialised (empty) attributes. -/
def NewString (value : String) : StringObject := { Name := "", Value := value }

/-- StringObject.Sub: placeholder, returns a fresh empty string. -/
def StringObject.Sub (o : StringObject) (r : PyObj) : StringObject := NewString ""

/-- StringObject.Div: placeholder, returns a fresh empty string. -/
def StringObject.Div (o : StringObject) (r : PyObj) : StringObject := NewString ""

/-- StringObject.FloorDiv: placeholder, returns a fresh empty string. -/
def StringObject.FloorDiv (o : StringObject) (r : PyObj) : StringObject := NewString ""

/-- StringObject.Mod: returns a fresh string object carrying the receiver's
    own value. -/
def StringObject.Mod (o : StringObject) (r : PyObj) : StringObject := NewString o.Value

/-- Attribute-map assignment (Go map[string]Object write). -/
def attrsInsert {α : Type} (m : List (String × α)) (k : String) (v : α) :
    List (String × α) :=
  if (m.find? (fun p => p.1 == k)).isSome then
    m.map (fun p => if p.1 == k then (k, v) else p)
  else m ++ [(k, v)]

/-- The attribute holder embedded in every object (struct ObjectData).  The
    stored values are Object interface pointers the map operations never
    inspect, so the value type is a parameter. -/
structure ObjectData (α : Type) where
  Name : String := ""
  Attrs : List (String × α) := []

/-- ObjectData.GetAttr: comma-ok map read, returning the value (nil when
    absent) and the presence flag. -/
def ObjectData.GetAttr {α : Type} (o : ObjectData α) (name : String) :
    Option α × Bool :=
  let value := (o.Attrs.find? (fun p => p.1 == name)).map (fun p => p.2)
  (value, value.isSome)

/-- ObjectData.SetAttr: map assignment. -/
def ObjectData.SetAttr {α : Type} (o : ObjectData α) (name : String) (value : α) :
    ObjectData α :=
  { o with Attrs := attrsInsert o.Attrs name value }

/-! ### Concrete inputs referenced by the claim theorems -/

/-- Source log e0 = load_int(1000), e1 = load_int(2000), e2 = ADD(e0, e1):
    both literals are read by e2, so at e1 the single allocatable register
    (num_regs = 2) is occupied by the still-live e0. -/
def exC1 : SsaContext :=
  let c := SsaContext.init
  let c := (c.LoadInt ⟨0, 1000⟩).1
  let c := (c.LoadInt ⟨1, 2000⟩).1
  (c.Eval SSA_ADD 0 1).1

/-- Context holding two interned literal loads, ready for an ALU write. -/
def exC2ctx : SsaContext :=
  let c := SsaContext.init
  let c := (c.LoadInt ⟨0, 5⟩).1
  (c.LoadInt ⟨1, 7⟩).1

/-- The ALU element ADD(e0, e1) before being written. -/
def exC2el : SsaElement :=
  { Op := SSA_ADD, Src1 := 0, Src2 := 1,
    Src1Type := SSA_TYPE_ELEMENT, Src2Type := SSA_TYPE_ELEMENT }

/-- Source log e0 = load_int(5), e1 = load_int(7), e2 = ADD(e0, e1),
    e3 = ADD(e2, e2); e3 is dead (never read). -/
def exC4 : SsaContext :=
  let c := SsaContext.init
  let c := (c.LoadInt ⟨0, 5⟩).1
  let c := (c.LoadInt ⟨1, 7⟩).1
  let c := (c.Eval SSA_ADD 0 1).1
  (c.Eval SSA_ADD 2 2).1

/-- The allocator's result on exC4 with four registers. -/
def exC4res : Option (SsaContext × SsaContext) := exC4.AllocateRegisters 4

/-- The register-stamped source context of exC4res. -/
def exC4src : SsaContext := (exC4res.getD (default, default)).1

/-- The rewritten context of exC4res. -/
def exC4new : SsaContext := (exC4res.getD (default, default)).2

/-- A stream whose single word is LOAD a -> r3 predicated on predicate
    register 1 with polarity execute-when-true, and whose locals bind the id
    of a to an int-object of value 10.  A fresh machine has Pred[1] = false,
    so the predicate inhibits execution. -/
def exC6stream : CodeStream :=
  (CodeStream.fresh.BindLocal "a" (PyObj.intObj 10)).WriteLoad "a" 3 false 1

/-- The dispatch scenario stream: bind local a to int 10, then
    LOAD a -> r3; BIND b <- r3; LOAD b -> r4; ADD r3, r4 -> r5.  The ADD word
    0x00543026 is the register-format encoding fixed by the repository's own
    golden vector. -/
def exC7stream : CodeStream :=
  let s := CodeStream.fresh.BindLocal "a" (PyObj.intObj 10)
  let s := s.WriteLoad "a" 3 false 0
  let s := s.WriteBind "b" 3 false 0
  let s := s.WriteLoad "b" 4 false 0
  { s with Buffer := writeWordLE s.Buffer 0x00543026 }

/-- Machine and stream after dispatching the four scenario instructions. -/
def exC7run : Machine × CodeStream :=
  let p := Machine.fresh.Dispatch exC7stream
  let p := p.1.Dispatch p.2
  let p := p.1.Dispatch p.2
  p.1.Dispatch p.2

/-! ### Notions used to state the allocator order-preservation claim -/

/-- Elements the allocator's dead-code skip keeps: pinned or ever read. -/
def survivors (l : List SsaElement) : List SsaElement :=
  l.filter (fun e => e.Pinned || e.WasRead)

/-- Auxiliary instructions the allocator may interleave: spills and fills. -/
def isAuxOp (e : SsaElement) : Prop := e.Op = SSA_SPILL ∨ e.Op = SSA_FILL

/-- The rewritten element of a surviving source element: the copy agrees on
    the opcode, operand kinds, flags and live range (operand ids, register
    stamps, active range and address are rewritten). -/
def rewriteOf (old e : SsaElement) : Prop :=
  e.Op = old.Op ∧ e.Src1Type = old.Src1Type ∧ e.Src2Type = old.Src2Type ∧
  e.WasRead = old.WasRead ∧ e.IsConst = old.IsConst ∧ e.Pinned = old.Pinned ∧
  e.LiveStart = old.LiveStart ∧ e.LiveEnd = old.LiveEnd

/-- The rewritten log decomposes into one chunk per surviving source element,
    in source order: each chunk is a run of spill/fill auxiliaries followed by
    that element's rewrite. -/
inductive RewriteChunks : List SsaElement → List SsaElement → Prop where
  | nil : RewriteChunks [] []
  | cons (aux : List SsaElement) (old e : SsaElement) (rest out : List SsaElement) :
      (∀ a ∈ aux, isAuxOp a) → rewriteOf old e → RewriteChunks rest out →
      RewriteChunks (old :: rest) (aux ++ e :: out)

/-! ### Input used by the attribute-map claim -/

/-- Apply a sequence of set_attr calls. -/
def setAll {α : Type} (o : ObjectData α) (ops : List (String × α)) : ObjectData α :=
  ops.foldl (fun o p => o.SetAttr p.1 p.2) o

/-! ### Association-list facts used by the interning and attribute claims -/

lemma find_replace_self {α : Type} (t : List (String × α)) (k : String) (v : α)
    (hs : (t.find? (fun p => p.1 == k)).isSome = true) :
    (t.map (fun p => if p.1 == k then (k, v) else p)).find? (fun p => p.1 == k) =
      some (k, v) := by
  induction t with
  | nil => simp at hs
  | cons a t ih =>
    by_cases hak : a.1 = k
    · rw [List.map_cons, if_pos (by simp [hak])]
      exact List.find?_cons_of_pos _ (by simp)
    · have hs2 : (t.find? (fun p => p.1 == k)).isSome = true := by
        rw [List.find?_cons_of_neg _ (by simp [hak])] at hs
        exact hs
      rw [List.map_cons, if_neg (by simp [hak])]
      rw [List.find?_cons_of_neg _ (by simp [hak])]
      exact ih hs2

lemma find_append_single_self {α : Type} (t : List (String × α)) (k : String) (v : α)
    (hn : t.find? (fun p => p.1 == k) = none) :
    (t ++ [(k, v)]).find? (fun p => p.1 == k) = some (k, v) := by
  induction t with
  | nil => simp
  | cons a t ih =>
    have hak : ¬ (a.1 = k) := by
      intro hcontra
      rw [List.find?_cons_of_pos _ (by simp [hcontra])] at hn
      exact Option.noConfusion hn
    have hn2 : t.find? (fun p => p.1 == k) = none := by
      rw [List.find?_cons_of_neg _ (by simp [hak])] at hn
      exact hn
    rw [List.cons_append, List.find?_cons_of_neg _ (by simp [hak])]
    exact ih hn2

lemma attrsInsert_find_self {α : Type} (m : List (String × α)) (k : String) (v : α) :
    (attrsInsert m k v).find? (fun p => p.1 == k) = some (k, v) := by
  unfold attrsInsert
  split
  case isTrue h => exact find_replace_self m k v h
  case isFalse h => exact find_append_single_self m k v (Option.not_isSome_iff_eq_none.mp h)

lemma find_none_keys_ne {α : Type} (m : List (String × α)) (n : String)
    (h : ∀ p ∈ m, p.1 ≠ n) : m.find? (fun p => p.1 == n) = none := by
  rw [List.find?_eq_none]
  intro p hp
  simp [h p hp]

lemma attrsInsert_keys_ne {α : Type} (m : List (String × α)) (k n : String) (v : α)
    (hm : ∀ p ∈ m, p.1 ≠ n) (hk : k ≠ n) :
    ∀ p ∈ attrsInsert m k v, p.1 ≠ n := by
  intro p hp
  unfold attrsInsert at hp
  split at hp
  · rcases List.mem_map.mp hp with ⟨q, hq, hfq⟩
    by_cases hqk : q.1 = k
    · simp [hqk] at hfq
      rw [← hfq]
      exact hk
    · simp [hqk] at hfq
      rw [← hfq]
      exact hm q hq
  · rcases List.mem_append.mp hp with h1 | h2
    · exact hm p h1
    · simp at h2
      subst h2
      exact hk

lemma setAll_getAttr_none {α : Type} (n : String) :
    ∀ (ops : List (String × α)) (o : ObjectData α),
      (∀ p ∈ ops, p.1 ≠ n) → (∀ p ∈ o.Attrs, p.1 ≠ n) →
      (setAll o ops).GetAttr n = (none, false) := by
  intro ops
  induction ops with
  | nil =>
    intro o _ ho
    simp [setAll, ObjectData.GetAttr, find_none_keys_ne _ _ ho]
  | cons a t ih =>
    intro o hops ho
    show (setAll (o.SetAttr a.1 a.2) t).GetAttr n = (none, false)
    refine ih (o.SetAttr a.1 a.2) (fun p hp => hops p (List.mem_cons_of_mem a hp)) ?_
    exact attrsInsert_keys_ne o.Attrs a.1 n a.2 ho (hops a (List.mem_cons_self a t))

lemma intFind_replace_self (t : List (BigIntRef × Nat)) (v : BigIntRef) (i : Nat)
    (hs : (t.find? (fun p => decide (p.1 = v))).isSome = true) :
    (t.map (fun p => if p.1 = v then (v, i) else p)).find?
        (fun p => decide (p.1 = v)) = some (v, i) := by
  induction t with
  | nil => simp at hs
  | cons a t ih =>
    by_cases hav : a.1 = v
    · rw [List.map_cons, if_pos hav]
      exact List.find?_cons_of_pos _ (by simp)
    · have hs2 : (t.find? (fun p => decide (p.1 = v))).isSome = true := by
        rw [List.find?_cons_of_neg _ (by simp [hav])] at hs
        exact hs
      rw [List.map_cons, if_neg hav]
      rw [List.find?_cons_of_neg _ (by simp [hav])]
      exact ih hs2

lemma intFind_append_single_self (t : List (BigIntRef × Nat)) (v : BigIntRef) (i : Nat)
    (hn : t.find? (fun p => decide (p.1 = v)) = none) :
    (t ++ [(v, i)]).find? (fun p => decide (p.1 = v)) = some (v, i) := by
  induction t with
  | nil => simp
  | cons a t ih =>
    have hav : ¬ (a.1 = v) := by
      intro hcontra
      rw [List.find?_cons_of_pos _ (by simp [hcontra])] at hn
      exact Option.noConfusion hn
    have hn2 : t.find? (fun p => decide (p.1 = v)) = none := by
      rw [List.find?_cons_of_neg _ (by simp [hav])] at hn
      exact hn
    rw [List.cons_append, List.find?_cons_of_neg _ (by simp [hav])]
    exact ih hn2

lemma intIdxLookup_insert_self (m : List (BigIntRef × Nat)) (v : BigIntRef) (i : Nat) :
    intIdxLookup (intIdxInsert m v i) v = some i := by
  unfold intIdxLookup intIdxInsert
  split
  case isTrue h => rw [intFind_replace_self m v i h]; rfl
  case isFalse h =>
    rw [intFind_append_single_self m v i (Option.not_isSome_iff_eq_none.mp h)]
    rfl

/-! ### Claim C1 -/

/-- Claim C1 (code bug): on the source log e0 = load_int(1000),
    e1 = load_int(2000), e2 = ADD(e0, e1) with two registers, the allocator
    panics at e1 even though the active element e0 is not in the no-spill set
    and is therefore spillable: generateSpill admits a victim only when its
    address IS in the no-spill map, the reverse of the protection its own
    documentation and the specification describe, so it finds no candidate
    and panics. -/
theorem allocator_spill_selection_inverted : exC1.AllocateRegisters 2 = none := by
  rfl

/-! ### Claim C3 -/

/-- Claim C3 (counterexample): interning keys on the *big.Int pointer, not the
    numeric value.  Two references with the equal value 1000 receive the
    distinct element ids 0 and 1, and the second call appends a second LOAD
    element to the log. -/
theorem load_int_fresh_for_equal_valued_references :
    ((SsaContext.init.LoadInt ⟨0, 1000⟩).1.LoadInt ⟨1, 1000⟩).2 = 1 ∧
    (SsaContext.init.LoadInt ⟨0, 1000⟩).2 = 0 ∧
    ((SsaContext.init.LoadInt ⟨0, 1000⟩).1.LoadInt ⟨1, 1000⟩).1.Elements.length = 2 ∧
    (SsaContext.init.LoadInt ⟨0, 1000⟩).1.Elements.length = 1 := by
  refine ⟨rfl, rfl, rfl, rfl⟩

/-- Claim C3 (amended): load_int is idempotent per reference: a second call
    with the same *big.Int returns the same element id and leaves the context
    unchanged, appending no new LOAD element. -/
theorem load_int_idempotent_per_reference (ctx : SsaContext) (v : BigIntRef) :
    (ctx.LoadInt v).1.LoadInt v = ctx.LoadInt v := by
  unfold SsaContext.LoadInt
  cases h : intIdxLookup ctx.IntIdx v with
  | some idx => simp [h]
  | none =>
    simp only [h]
    rw [intIdxLookup_insert_self]

/-! ### Claim C5 -/

/-- Claim C5 (confirmed): on a fresh code stream, WriteLoad("a", 3, false, 0)
    interns "a" as string id 0 and appends exactly the single little-endian
    word LOAD with immediate 0 and target register 3, 0x00003010. -/
theorem write_load_test_vector :
    strMapLookup (CodeStream.fresh.WriteLoad "a" 3 false 0).Strings "a" = some 0 ∧
    (CodeStream.fresh.WriteLoad "a" 3 false 0).Buffer = [0x10, 0x30, 0x00, 0x00] ∧
    readWordLE (CodeStream.fresh.WriteLoad "a" 3 false 0).Buffer =
      (LOAD ||| (0 <<< 16) ||| (3 <<< 12)) := by
  refine ⟨rfl, rfl, rfl⟩

/-! ### Claim C6 -/

/-- Claim C6 (code bug): the word in exC6stream names predicate register 1
    with polarity execute-when-true, and the fresh machine has Pred[1] =
    false, so the claim says dispatch must leave the registers unchanged; but
    Dispatch never evaluates the predicate fields and loads the local into
    register 3 anyway. -/
theorem dispatch_ignores_predicate_gating :
    (readWordLE exC6stream.Buffer &&& pred_reg_mask) >>> pred_reg_shift = 1 ∧
    (readWordLE exC6stream.Buffer &&& pred_execute_mask) >>> pred_execute_shift = 0 ∧
    Machine.fresh.Pred.getD 1 false = false ∧
    Machine.fresh.Register.getD 3 none = none ∧
    (Machine.fresh.Dispatch exC6stream).1.Register.getD 3 none =
      some (PyObj.intObj 10) := by
  refine ⟨rfl, rfl, rfl, rfl, rfl⟩

/-! ### Claim C7 -/

/-- Claim C7 (code bug): after dispatching LOAD a -> r3, BIND b <- r3,
    LOAD b -> r4 and ADD r3, r4 -> r5 with local a bound to int 10, registers
    3 and 4 hold the int object but register 5 is still nil: the execution
    switch of Dispatch has no ADD case, so the claimed (and unit-tested)
    result int 20 is never produced. -/
theorem dispatch_add_scenario_leaves_target_nil :
    exC7run.1.Register.getD 3 none = some (PyObj.intObj 10) ∧
    exC7run.1.Register.getD 4 none = some (PyObj.intObj 10) ∧
    exC7run.1.Register.getD 5 none = none ∧
    exC7run.1.Register.getD 5 none ≠ some (PyObj.intObj 20) := by
  refine ⟨rfl, rfl, rfl, by decide⟩

/-! ### Claim C8 -/

/-- Claim C8 (code bug): lines indented 4, 8 then 4 spaces produce INDENT,
    INDENT, then DEDENT, but the dedent case pushes the measured width 4
    instead of popping: the resulting stack is 4,8,4,0 (top first here), not
    the popped, monotonic stack 4,0 the dedent rule requires.  A line with no
    leading whitespace bypasses the switch entirely and emits nothing. -/
theorem dedent_pushes_instead_of_popping :
    runIndentLines [0]
        [[' ', ' ', ' ', ' '],
         [' ', ' ', ' ', ' ', ' ', ' ', ' ', ' '],
         [' ', ' ', ' ', ' ']] =
      ([some ScanTok.indent, some ScanTok.indent, some ScanTok.dedent],
        [4, 8, 4, 0]) ∧
    (runIndentLines [0]
        [[' ', ' ', ' ', ' '],
         [' ', ' ', ' ', ' ', ' ', ' ', ' ', ' '],
         [' ', ' ', ' ', ' ']]).2 ≠ [4, 0] ∧
    scanLineIndent [8, 4, 0] ['c'] = (none, [8, 4, 0]) := by
  refine ⟨rfl, by decide, rfl⟩

/-! ### Claim C9 -/

/-- Claim C9 (counterexample): string mod does not return the empty string:
    for the receiver "a" it returns a string object carrying "a". -/
theorem string_mod_returns_receiver_value :
    (NewString "a").Mod PyObj.noneObj ≠ NewString "" := by
  decide

/-- Claim C9 (amended): sub, div and floor_div on a string return a fresh
    empty string, while mod returns a fresh string carrying the receiver's
    own value. -/
theorem string_arithmetic_placeholders (s : StringObject) (r : PyObj) :
    s.Sub r = NewString "" ∧ s.Div r = NewString "" ∧
    s.FloorDiv r = NewString "" ∧ s.Mod r = NewString s.Value := by
  exact ⟨rfl, rfl, rfl, rfl⟩

/-! ### Claim C10 -/

/-- Claim C10 (confirmed): with an initialised attribute map, get_attr after
    set_attr(n, v) returns exactly (v, true); a second set_attr of the same
    name overwrites; and get_attr of a name never set by any sequence of
    set_attr calls returns present = false. -/
theorem attribute_map_round_trip {α : Type} (o : ObjectData α) (n : String) (v w : α)
    (ops : List (String × α)) (h : ∀ p ∈ ops, p.1 ≠ n) :
    (o.SetAttr n v).GetAttr n = (some v, true) ∧
    ((o.SetAttr n v).SetAttr n w).GetAttr n = (some w, true) ∧
    (setAll ({ Attrs := [] } : ObjectData α) ops).GetAttr n = (none, false) := by
  refine ⟨?_, ?_, ?_⟩
  · simp [ObjectData.GetAttr, ObjectData.SetAttr, attrsInsert_find_self]
  · simp [ObjectData.GetAttr, ObjectData.SetAttr, attrsInsert_find_self]
  · exact setAll_getAttr_none n ops { Attrs := [] } h (by intro p hp; simp at hp)

/-- Witness for the attribute-map round trip at a concrete instance. -/
theorem attribute_map_round_trip_witness :
    ((⟨"", [("x", 1)]⟩ : ObjectData Nat).SetAttr "y" 2).GetAttr "y" = (some 2, true) ∧
    (((⟨"", [("x", 1)]⟩ : ObjectData Nat).SetAttr "y" 2).SetAttr "y" 3).GetAttr "y" =
      (some 3, true) ∧
    (setAll ({ Attrs := [] } : ObjectData Nat) [("z", 4)]).GetAttr "y" =
      (none, false) :=
  attribute_map_round_trip ⟨"", [("x", 1)]⟩ "y" 2 3 [("z", 4)] (by decide)

/-! ### List access facts used by the live-range claim -/

lemma getD_set_eq {α : Type} (l : List α) (i : Nat) (a d : α) (h : i < l.length) :
    (l.set i a).getD i d = a := by
  simp [List.getD_eq_getElem?_getD, List.getElem?_set_self, h]

lemma getD_set_ne {α : Type} (l : List α) (i j : Nat) (a d : α) (h : i ≠ j) :
    (l.set i a).getD j d = l.getD j d := by
  simp [List.getD_eq_getElem?_getD, List.getElem?_set_ne, h]

/-! ### Claim C2 -/

/-- Claim C2 (confirmed): with live checks enabled, writing an ALU element
    (op above alu_mark) whose element-reference operand names an existing
    element R appends the element at index i = last_element_id and leaves the
    stored element R with live_end = i and was_read = true. -/
theorem write_live_range_closure (ctx : SsaContext) (el : SsaElement) (R : Nat)
    (hlc : ctx.DisableLiveCheck = false)
    (halu : SSA_ALU_MARK < el.Op)
    (href : (el.Src1Type = SSA_TYPE_ELEMENT ∧ el.Src1 = R) ∨
            (el.Src2Type = SSA_TYPE_ELEMENT ∧ el.Src2 = R))
    (hR : R < ctx.Elements.length) :
    (ctx.Write el).2 = ctx.Elements.length ∧
    ((ctx.Write el).1.Elements.getD R default).LiveEnd = ctx.Elements.length ∧
    ((ctx.Write el).1.Elements.getD R default).WasRead = true := by
  refine ⟨rfl, ?_⟩
  unfold SsaContext.Write
  simp only [hlc, Bool.false_eq_true, if_false, if_pos halu]
  rcases href with ⟨h1t, h1r⟩ | ⟨h2t, h2r⟩
  · by_cases h2t : el.Src2Type = SSA_TYPE_ELEMENT
    · by_cases h2r : el.Src2 = R
      · simp only [h1t, h2t, eq_self_iff_true, if_true, h1r, h2r]
        rw [List.getD_append _ _ _ _ (by simp [hR])]
        rw [getD_set_eq _ _ _ _ (by simp [hR])]
        exact ⟨rfl, rfl⟩
      · simp only [h1t, h2t, eq_self_iff_true, if_true, h1r]
        rw [List.getD_append _ _ _ _ (by simp [hR])]
        rw [getD_set_ne _ _ _ _ _ h2r]
        rw [getD_set_eq _ _ _ _ hR]
        exact ⟨rfl, rfl⟩
    · simp only [h1t, eq_self_iff_true, if_true, if_neg h2t, h1r]
      rw [List.getD_append _ _ _ _ (by simp [hR])]
      rw [getD_set_eq _ _ _ _ hR]
      exact ⟨rfl, rfl⟩
  · by_cases h1t : el.Src1Type = SSA_TYPE_ELEMENT
    · simp only [h1t, h2t, eq_self_iff_true, if_true, h2r]
      rw [List.getD_append _ _ _ _ (by simp [hR])]
      rw [getD_set_eq _ _ _ _ (by simp [hR])]
      exact ⟨rfl, rfl⟩
    · simp only [h2t, eq_self_iff_true, if_true, if_neg h1t, h2r]
      rw [List.getD_append _ _ _ _ (by simp [hR])]
      rw [getD_set_eq _ _ _ _ hR]
      exact ⟨rfl, rfl⟩

/-- Witness for the live-range closure: writing ADD(e0, e1) into the context
    holding the two interned loads closes e0's live range at index 2. -/
theorem write_live_range_closure_witness :
    (exC2ctx.Write exC2el).2 = exC2ctx.Elements.length ∧
    ((exC2ctx.Write exC2el).1.Elements.getD 0 default).LiveEnd =
      exC2ctx.Elements.length ∧
    ((exC2ctx.Write exC2el).1.Elements.getD 0 default).WasRead = true :=
  write_live_range_closure exC2ctx exC2el 0 (by decide) (by decide)
    (Or.inl ⟨by decide, by decide⟩) (by decide)

/-! ### Shape facts about the allocator's writes, spills and fills -/

lemma Write_disabled (ctx : SsaContext) (el : SsaElement) (h : ctx.DisableLiveCheck = true) :
    ctx.Write el =
      ({ ctx with Elements :=
          ctx.Elements ++ [{ el with Address := ctx.Elements.length }] },
        ctx.Elements.length) := by
  unfold SsaContext.Write
  simp [h]

lemma elements_of_room_ite (c : Prop) [Decidable c] (x : SsaContext) (v : Nat) :
    (if c then { x with SpillRoomNeeded := v } else x).Elements = x.Elements := by
  split <;> rfl

lemma dlc_of_room_ite (c : Prop) [Decidable c] (x : SsaContext) (v : Nat) :
    (if c then { x with SpillRoomNeeded := v } else x).DisableLiveCheck =
      x.DisableLiveCheck := by
  split <;> rfl

lemma rewriteOf_refl (e : SsaElement) : rewriteOf e e := by
  simp [rewriteOf]

lemma rewriteOf_trans {a b c : SsaElement} (h1 : rewriteOf a b) (h2 : rewriteOf b c) :
    rewriteOf a c := by
  unfold rewriteOf at *
  obtain ⟨x1, x2, x3, x4, x5, x6, x7, x8⟩ := h1
  obtain ⟨y1, y2, y3, y4, y5, y6, y7, y8⟩ := h2
  exact ⟨y1.trans x1, y2.trans x2, y3.trans x3, y4.trans x4, y5.trans x5,
    y6.trans x6, y7.trans x7, y8.trans x8⟩

lemma Spill_shape (ctx : SsaContext) (a b : Nat) (h : ctx.DisableLiveCheck = true) :
    ∃ sp, (ctx.Spill a b).1.Elements = ctx.Elements ++ [sp] ∧ isAuxOp sp ∧
      (ctx.Spill a b).1.DisableLiveCheck = true := by
  unfold SsaContext.Spill
  rw [Write_disabled _ _ h]
  exact ⟨_, rfl, Or.inl rfl, h⟩

lemma Fill_shape (ctx : SsaContext) (a b : Nat) (h : ctx.DisableLiveCheck = true) :
    ∃ sp, (ctx.Fill a b).1.Elements = ctx.Elements ++ [sp] ∧ isAuxOp sp ∧
      (ctx.Fill a b).1.DisableLiveCheck = true := by
  unfold SsaContext.Fill
  rw [Write_disabled _ _ h]
  exact ⟨_, rfl, Or.inr rfl, h⟩

lemma generateSpill_shape {nc : SsaContext} {mc : SsaMapContext}
    {q : SsaContext × SsaMapContext × Nat}
    (h : nc.DisableLiveCheck = true)
    (hres : generateSpill nc mc = some q) :
    ∃ aux, q.1.Elements = nc.Elements ++ aux ∧ (∀ x ∈ aux, isAuxOp x) ∧
      q.1.DisableLiveCheck = true := by
  unfold generateSpill at hres
  split at hres
  · exact Option.noConfusion hres
  · rename_i ia heq
    rw [Option.some.injEq] at hres
    subst hres
    obtain ⟨sp, hsp, hax, hdlc⟩ := Spill_shape nc
      (if mc.FreeSpillSlots.length = 0 then (mc.SpillMap.length, mc.FreeSpillSlots)
        else vpop mc.FreeSpillSlots).1
      (nc.Elements.getD ia.2 default).DstRegister h
    refine ⟨[sp], ?_, ?_, ?_⟩
    · rw [elements_of_room_ite]
      exact hsp
    · intro x hx
      simp only [List.mem_singleton] at hx
      subst hx
      exact hax
    · rw [dlc_of_room_ite]
      exact hdlc

lemma generateFill_shape {nc : SsaContext} {a : Nat} {mc : SsaMapContext}
    {q : SsaContext × SsaMapContext × Nat}
    (h : nc.DisableLiveCheck = true)
    (hres : generateFill nc a mc = some q) :
    ∃ aux, q.1.Elements = nc.Elements ++ aux ∧ (∀ x ∈ aux, isAuxOp x) ∧
      q.1.DisableLiveCheck = true := by
  unfold generateFill at hres
  simp only [] at hres
  split at hres
  · exact Option.noConfusion hres
  · rename_i s heq
    rw [Option.some.injEq] at hres
    subst hres
    have hstep : ∃ aux0, s.1.Elements = nc.Elements ++ aux0 ∧
        (∀ x ∈ aux0, isAuxOp x) ∧ s.1.DisableLiveCheck = true := by
      split at heq
      · exact generateSpill_shape h heq
      · rw [Option.some.injEq] at heq
        subst heq
        exact ⟨[], by simp, by simp, h⟩
    obtain ⟨aux0, he0, ha0, hd0⟩ := hstep
    obtain ⟨fl, hfl, hflax, hfld⟩ := Fill_shape s.1
      ((mapLookup mc.SpillMap (nc.Elements.getD a default).Address).getD 0) s.2.2 hd0
    refine ⟨aux0 ++ [fl], ?_, ?_, ?_⟩
    · rw [hfl, he0, List.append_assoc]
    · intro x hx
      rcases List.mem_append.mp hx with h1 | h2
      · exact ha0 x h1
      · simp only [List.mem_singleton] at h2
        subst h2
        exact hflax
    · exact hfld

lemma processFills_shape {el : SsaElement} {nc : SsaContext} {mc : SsaMapContext}
    {q : SsaElement × SsaContext × SsaMapContext}
    (h : nc.DisableLiveCheck = true)
    (hres : processFills el nc mc = some q) :
    ∃ aux, q.2.1.Elements = nc.Elements ++ aux ∧ (∀ x ∈ aux, isAuxOp x) ∧
      q.2.1.DisableLiveCheck = true ∧ rewriteOf el q.1 := by
  unfold processFills at hres
  split at hres
  · simp only [] at hres
    split at hres
    · exact Option.noConfusion hres
    · rename_i q1 heq1
      have h1 : ∃ aux1, q1.2.1.Elements = nc.Elements ++ aux1 ∧
          (∀ x ∈ aux1, isAuxOp x) ∧ q1.2.1.DisableLiveCheck = true ∧
          rewriteOf el q1.1 := by
        split at heq1
        · split at heq1
          · exact Option.noConfusion heq1
          · rename_i s heqf
            rw [Option.some.injEq] at heq1
            subst heq1
            obtain ⟨aux, he, ha, hd⟩ := generateFill_shape h heqf
            exact ⟨aux, he, ha, hd, by simp [rewriteOf]⟩
        · rw [Option.some.injEq] at heq1
          subst heq1
          exact ⟨[], by simp, by simp, h, by simp [rewriteOf]⟩
      obtain ⟨aux1, he1, ha1, hd1, hr1⟩ := h1
      split at hres
      · split at hres
        · exact Option.noConfusion hres
        · rename_i s heqf
          rw [Option.some.injEq] at hres
          subst hres
          obtain ⟨aux2, he2, ha2, hd2⟩ := generateFill_shape hd1 heqf
          refine ⟨aux1 ++ aux2, ?_, ?_, hd2, ?_⟩
          · rw [he2, he1, List.append_assoc]
          · intro x hx
            rcases List.mem_append.mp hx with hx1 | hx2
            · exact ha1 x hx1
            · exact ha2 x hx2
          · exact rewriteOf_trans hr1 (by simp [rewriteOf])
      · rw [Option.some.injEq] at hres
        subst hres
        exact ⟨aux1, he1, ha1, hd1, hr1⟩
  · rw [Option.some.injEq] at hres
    subst hres
    exact ⟨[], by simp, by simp, h, rewriteOf_refl el⟩

lemma selectDstReg_shape {nc : SsaContext} {mc : SsaMapContext}
    {q : SsaContext × SsaMapContext × Nat}
    (h : nc.DisableLiveCheck = true)
    (hres : selectDstReg nc mc = some q) :
    ∃ aux, q.1.Elements = nc.Elements ++ aux ∧ (∀ x ∈ aux, isAuxOp x) ∧
      q.1.DisableLiveCheck = true := by
  unfold selectDstReg at hres
  split at hres
  · exact generateSpill_shape h hres
  · simp only [] at hres
    rw [Option.some.injEq] at hres
    subst hres
    exact ⟨[], by simp, by simp, h⟩

lemma allocStep_skip {i : Nat} {old : SsaElement} {nc : SsaContext} {mc : SsaMapContext}
    (hskip : (!old.Pinned && !old.WasRead) = true) :
    allocStep i old nc mc = some (old, nc, mc) := by
  simp [allocStep, hskip]

lemma allocStep_emit {i : Nat} {old : SsaElement} {nc : SsaContext} {mc : SsaMapContext}
    {q : SsaElement × SsaContext × SsaMapContext}
    (hskip : (!old.Pinned && !old.WasRead) = false)
    (h : nc.DisableLiveCheck = true)
    (hres : allocStep i old nc mc = some q) :
    ∃ aux e, q.2.1.Elements = nc.Elements ++ (aux ++ [e]) ∧
      (∀ x ∈ aux, isAuxOp x) ∧ rewriteOf old e ∧ q.2.1.DisableLiveCheck = true := by
  unfold allocStep at hres
  rw [hskip] at hres
  simp only [Bool.false_eq_true, if_false] at hres
  split at hres
  · exact Option.noConfusion hres
  · rename_i qf heqf
    split at hres
    · exact Option.noConfusion hres
    · rename_i d heqd
      rw [Option.some.injEq] at hres
      subst hres
      obtain ⟨aux1, he1, ha1, hd1, hr1⟩ := processFills_shape h heqf
      obtain ⟨aux2, he2, ha2, hd2⟩ := selectDstReg_shape hd1 heqd
      have hw := Write_disabled d.1 { qf.1 with DstRegister := d.2.2 } hd2
      refine ⟨aux1 ++ aux2,
        { qf.1 with DstRegister := d.2.2, Address := d.1.Elements.length },
        ?_, ?_, ?_, ?_⟩
      · show (d.1.Write { qf.1 with DstRegister := d.2.2 }).1.Elements = _
        rw [hw]
        show d.1.Elements ++ _ = _
        rw [he2, he1]
        simp [List.append_assoc]
      · intro x hx
        rcases List.mem_append.mp hx with hx1 | hx2
        · exact ha1 x hx1
        · exact ha2 x hx2
      · refine rewriteOf_trans (rewriteOf_trans ?_ hr1) (by simp [rewriteOf])
        split <;> simp [rewriteOf]
      · show (d.1.Write { qf.1 with DstRegister := d.2.2 }).1.DisableLiveCheck = true
        rw [hw]
        exact hd2

lemma allocLoop_chunks :
    ∀ (pending : List SsaElement) (i : Nat) (nc : SsaContext) (mc : SsaMapContext)
      (res : List SsaElement × SsaContext),
      nc.DisableLiveCheck = true →
      allocLoop pending i nc mc = some res →
      ∃ delta, res.2.Elements = nc.Elements ++ delta ∧
        RewriteChunks (survivors pending) delta ∧ res.2.DisableLiveCheck = true := by
  intro pending
  induction pending with
  | nil =>
    intro i nc mc res h hres
    unfold allocLoop at hres
    rw [Option.some.injEq] at hres
    subst hres
    refine ⟨[], by simp, ?_, h⟩
    simp only [survivors, List.filter_nil]
    exact RewriteChunks.nil
  | cons old rest ih =>
    intro i nc mc res h hres
    unfold allocLoop at hres
    split at hres
    · exact Option.noConfusion hres
    · rename_i s heqs
      split at hres
      · exact Option.noConfusion hres
      · rename_i r heqr
        rw [Option.some.injEq] at hres
        subst hres
        by_cases hskip : (!old.Pinned && !old.WasRead) = true
        · rw [allocStep_skip hskip, Option.some.injEq] at heqs
          subst heqs
          obtain ⟨delta, hd, hch, hfl⟩ := ih (i + 1) nc mc r h heqr
          refine ⟨delta, hd, ?_, hfl⟩
          have hdead : ¬ ((old.Pinned || old.WasRead) = true) := by
            cases hp : old.Pinned <;> cases hw : old.WasRead <;> simp_all
          simp only [survivors]
          rw [@List.filter_cons_of_neg SsaElement (fun e => e.Pinned || e.WasRead)
            old rest hdead]
          exact hch
        · have hskipf : (!old.Pinned && !old.WasRead) = false := by
            cases hb : (!old.Pinned && !old.WasRead) with
            | true => exact absurd hb hskip
            | false => rfl
          obtain ⟨aux, e, he, ha, hr, hfl1⟩ := allocStep_emit hskipf h heqs
          obtain ⟨delta, hd, hch, hfl⟩ := ih (i + 1) s.2.1 s.2.2 r hfl1 heqr
          refine ⟨(aux ++ [e]) ++ delta, ?_, ?_, hfl⟩
          · rw [hd, he, List.append_assoc]
          · have hsurv : (old.Pinned || old.WasRead) = true := by
              cases hp : old.Pinned <;> cases hw : old.WasRead <;> simp_all
            simp only [survivors]
            rw [@List.filter_cons_of_pos SsaElement (fun e => e.Pinned || e.WasRead)
              old rest hsurv]
            have hsplit : (aux ++ [e]) ++ delta = aux ++ e :: delta := by simp
            rw [hsplit]
            exact RewriteChunks.cons aux old e _ delta ha hr
              (by simpa [survivors] using hch)

/-! ### Claim C4 -/

/-- Claim C4 (confirmed): when AllocateRegisters succeeds, the rewritten
    context decomposes into one chunk per surviving source element (pinned or
    was_read), in source order: each chunk is a run of SPILL/FILL auxiliaries
    followed by the rewrite of the n-th surviving source element, so the
    surviving elements form an order-preserving subsequence and every
    auxiliary precedes its element. -/
theorem allocate_registers_order_preservation (ctx : SsaContext) (n : Nat)
    (src new_ctx : SsaContext)
    (h : ctx.AllocateRegisters n = some (src, new_ctx)) :
    RewriteChunks (survivors ctx.Elements) new_ctx.Elements := by
  unfold SsaContext.AllocateRegisters at h
  simp only [] at h
  split at h
  · exact Option.noConfusion h
  · rename_i r heqr
    rw [Option.some.injEq] at h
    obtain ⟨delta, hd, hch, _⟩ := allocLoop_chunks ctx.Elements 0
      { SsaContext.init with DisableLiveCheck := true }
      { FreeRegs := (List.range n).drop 1 } r rfl heqr
    have h2 : new_ctx = r.2 := by
      have hcg := congrArg (fun t => t.2) h
      simp only [] at hcg
      exact hcg.symm
    rw [h2, hd]
    simpa [SsaContext.init] using hch

/-- Witness for the order-preservation theorem: the allocator succeeds on the
    four-element source log with four registers, and the rewritten log is
    chunked over its three surviving elements. -/
theorem allocate_registers_order_preservation_witness :
    RewriteChunks (survivors exC4.Elements) exC4new.Elements :=
  allocate_registers_order_preservation exC4 4 exC4src exC4new (by rfl)
